import Mathlib

/-!
Shallow embedding of the go-model library (github.com/jeevatkm/go-model) for
verifying its natural-language specification.

The embedding models the reflective value universe the library operates on:
struct ("record") values with exported/unexported, possibly anonymous
(embedded) fields carrying a `model` tag string, plus the scalar, pointer and
interface kinds that the verified claims exercise.  Go maps, slices and the
byte-slice special case of the source are outside the modelled value universe
(no claim touches them); the corresponding `case reflect.Map/Slice` branches
of `copyVal`/`mapVal` are therefore not represented.

Definitions are translated from the repository sources:
  - `model.go` (library version 0.4): IsZero, HasZero, IsZeroInFields, Copy,
    Clone, Map, doCopy, doMap, copyVal, mapVal, valiadateCopyField, zeroOf,
    isFieldZero, modelFields, structValue, deepTypeOf, indirect, isStruct, ...
  - `tag.go`: newTag and the tag option predicates,
  - `util.go` (a later library version): validateCopyField, conversionExists.
Go strings are modelled through their character lists: `strings.Split`,
`strings.Join`, `strings.Contains` and `strings.TrimSpace` are re-implemented
over `List Char` (`goSplit`, `goJoin`, `strContains`, `isStringEmpty`).
`reflect.DeepEqual` on the modelled universe is structural equality and is
implemented by `valBeq`.
-/

namespace GoModel

/-- A struct field's metadata, as exposed by `reflect.StructField`:
field name, package path (empty for exported fields), whether the field is
anonymous (embedded), and the raw value of its `model` tag. -/
structure FieldInfo where
  Name : String
  PkgPath : String
  Anonymous : Bool
  Tag : String
deriving DecidableEq, Repr

/-- Go types of the modelled universe (`reflect.Type`). -/
inductive Ty where
  | int
  | str
  | bool
  | iface
  | ptr (e : Ty)
  | strct (name : String) (fields : List (FieldInfo × Ty))

/-- Go runtime values of the modelled universe (`reflect.Value`).
`invalid` is the zero `reflect.Value`.  A struct value carries, for each
field, its `StructField` metadata, its declared type and its current value
(in Go these are recovered from the value's type and `FieldByName`; keeping
them together models the coherence of a value with its own type). -/
inductive Val where
  | invalid
  | int (n : Int)
  | str (s : String)
  | bool (b : Bool)
  | ptrNil (e : Ty)
  | ptrV (e : Ty) (p : Val)
  | ifaceNil
  | ifaceV (v : Val)
  | strct (name : String) (fields : List (FieldInfo × Ty × Val))

/-- `reflect.Kind` restricted to the modelled universe.  `slice` and `map`
have no inhabitants in the modelled value universe; they exist only so the
slice/map kind tests of util.go `validateCopyField` can be written as in
the source. -/
inductive Kind where
  | invalid
  | int
  | str
  | bool
  | ptr
  | iface
  | strct
  | slice
  | map
deriving DecidableEq, Repr

/-! ## Strings: the fragment of Go's strings package used by tag.go -/

/-- `strings.Split(s, sep)` for a one-character separator, over char lists.
Always returns at least one (possibly empty) piece. -/
def splitChar (c : Char) : List Char → List (List Char)
  | [] => [[]]
  | x :: rest =>
    if x == c then [] :: splitChar c rest
    else
      match splitChar c rest with
      | [] => [[x]]
      | hd :: tl => (x :: hd) :: tl

/-- `strings.Join(pieces, sep)` for a one-character separator, over char
lists. -/
def joinChar (c : Char) : List (List Char) → List Char
  | [] => []
  | [piece] => piece
  | piece :: rest => piece ++ c :: joinChar c rest

/-- Does `pat` occur as a contiguous substring of `s`? (`strings.Contains`.) -/
def subList (s pat : List Char) : Bool :=
  pat.isPrefixOf s ||
    match s with
    | [] => false
    | _ :: rest => subList rest pat

/-- `strings.Split(s, ",")`. -/
def goSplit (s : String) : List String :=
  (splitChar ',' s.data).map (fun l => String.mk l)

/-- `strings.Join(xs, ",")`. -/
def goJoin (xs : List String) : String :=
  String.mk (joinChar ',' (xs.map String.data))

/-- `strings.Contains(s, pat)`. -/
def strContains (s pat : String) : Bool :=
  subList s.data pat.data

/-- tag.go `isStringEmpty`: `len(strings.TrimSpace(str)) == 0`. -/
def isStringEmpty (s : String) : Bool :=
  s.data.all Char.isWhitespace

/-! ## Library constants (model.go) -/

/-- model.go `OmitField`: tag value used to omit fields from processing. -/
def OmitField : String := "-"

/-- model.go `OmitEmpty`: tag option to skip zero-valued fields in output. -/
def OmitEmpty : String := "omitempty"

/-- model.go `NoTraverse`: tag option to not traverse into a struct field. -/
def NoTraverse : String := "notraverse"

/-! ## tag.go -/

/-- The parsed form of a `model` tag (tag.go `type tag`). -/
structure ModelTag where
  Name : String
  Options : String
deriving DecidableEq, Repr

/-- tag.go `newTag`: split the raw tag on commas; the first piece is the
target name, the rest (re-joined with commas) are the options. -/
def newTag (modelTag : String) : ModelTag :=
  let values := goSplit modelTag
  { Name := values.headD "", Options := goJoin values.tail }

/-- tag.go `tag.isExists`: option containment by substring. -/
def ModelTag.isExists (t : ModelTag) (opt : String) : Bool :=
  strContains t.Options opt

/-- tag.go `tag.isOmitField`. -/
def ModelTag.isOmitField (t : ModelTag) : Bool :=
  t.Name == OmitField

/-- tag.go `tag.isOmitEmpty`. -/
def ModelTag.isOmitEmpty (t : ModelTag) : Bool :=
  t.isExists OmitEmpty

/-- tag.go `tag.isNoTraverse`. -/
def ModelTag.isNoTraverse (t : ModelTag) : Bool :=
  t.isExists NoTraverse

/-! ## The reflect layer -/

/-- The kind of a value (`reflect.Value.Kind`). -/
def Val.kind : Val → Kind
  | .invalid => .invalid
  | .int _ => .int
  | .str _ => .str
  | .bool _ => .bool
  | .ptrNil _ | .ptrV _ _ => .ptr
  | .ifaceNil | .ifaceV _ => .iface
  | .strct _ _ => .strct

/-- The kind of a type (`reflect.Type.Kind`). -/
def Ty.kind : Ty → Kind
  | .int => .int
  | .str => .str
  | .bool => .bool
  | .iface => .iface
  | .ptr _ => .ptr
  | .strct _ _ => .strct

/-- The type of a value (`reflect.Value.Type`).  In Go, `Type()` on the zero
`reflect.Value` panics; no modelled flow reaches it, and it is mapped to the
empty-interface type here only to keep the function total. -/
def Val.typeOf : Val → Ty
  | .invalid => .iface
  | .int _ => .int
  | .str _ => .str
  | .bool _ => .bool
  | .ptrNil e => .ptr e
  | .ptrV e _ => .ptr e
  | .ifaceNil => .iface
  | .ifaceV _ => .iface
  | .strct n fs => .strct n (fs.map (fun x => (x.1, x.2.1)))

/-- Boxing a value into an `interface{}` (`reflect.Value.Interface`):
a value of interface kind yields its dynamic contents (`none` when empty),
any other valid value yields itself.  In Go, `Interface()` on the zero
`reflect.Value` panics; no modelled flow reaches it. -/
def Val.interf : Val → Option Val
  | .invalid => none
  | .ifaceNil => none
  | .ifaceV v => some v
  | v => some v

/-- model.go `valueOf`: `reflect.ValueOf` on an `interface{}`; a nil
interface yields the zero (invalid) `reflect.Value`. -/
def valueOf : Option Val → Val
  | none => .invalid
  | some v => v

/-- The common source pattern `valueOf(f.Interface())`. -/
def vOfInterf (v : Val) : Val :=
  valueOf v.interf

/-- model.go `indirect`: `reflect.Indirect` - dereference a pointer (the
zero value if the pointer is nil), anything else unchanged. -/
def indirect : Val → Val
  | .ptrV _ p => p
  | .ptrNil _ => .invalid
  | v => v

/-- model.go `isPtr`. -/
def isPtr (v : Val) : Bool :=
  v.kind == .ptr

/-- model.go `isInterface`. -/
def isInterface (v : Val) : Bool :=
  v.kind == .iface

/-- `reflect.Value.IsValid`. -/
def isValid (v : Val) : Bool :=
  v.kind != .invalid

/-- model.go `isStruct`: unwrap an interface to its dynamic value, then a
pointer to its pointee; a not-yet-initialized (invalid) result is not a
struct. -/
def isStruct (v : Val) : Bool :=
  let v1 := if isInterface v then vOfInterf v else v
  let pv := indirect v1
  if pv.kind == .invalid then false else pv.kind == .strct

mutual

/-- Type equality (Go `reflect.Type` comparison, `==` on types). -/
def tyBeq : Ty → Ty → Bool
  | .int, .int => true
  | .str, .str => true
  | .bool, .bool => true
  | .iface, .iface => true
  | .ptr a, .ptr b => tyBeq a b
  | .strct n1 f1, .strct n2 f2 => n1 == n2 && tyFieldsBeq f1 f2
  | _, _ => false
termination_by a _ => sizeOf a
decreasing_by all_goals (simp_wf <;> omega)

/-- Field-list equality for `tyBeq`. -/
def tyFieldsBeq : List (FieldInfo × Ty) → List (FieldInfo × Ty) → Bool
  | [], [] => true
  | (i1, t1) :: r1, (i2, t2) :: r2 => i1 == i2 && tyBeq t1 t2 && tyFieldsBeq r1 r2
  | _, _ => false
termination_by a _ => sizeOf a
decreasing_by all_goals (simp_wf <;> omega)

end

mutual

/-- `reflect.DeepEqual` on the modelled universe: structural equality.
Values of different types are never equal; pointers compare by their
pointees; interface contents compare dynamically. -/
def valBeq : Val → Val → Bool
  | .invalid, .invalid => true
  | .int a, .int b => a == b
  | .str a, .str b => a == b
  | .bool a, .bool b => a == b
  | .ptrNil a, .ptrNil b => tyBeq a b
  | .ptrV a p, .ptrV b q => tyBeq a b && valBeq p q
  | .ifaceNil, .ifaceNil => true
  | .ifaceV a, .ifaceV b => valBeq a b
  | .strct n1 f1, .strct n2 f2 => n1 == n2 && valFieldsBeq f1 f2
  | _, _ => false
termination_by a _ => sizeOf a
decreasing_by all_goals (simp_wf <;> omega)

/-- Field-list equality for `valBeq`. -/
def valFieldsBeq : List (FieldInfo × Ty × Val) → List (FieldInfo × Ty × Val) → Bool
  | [], [] => true
  | (i1, t1, v1) :: r1, (i2, t2, v2) :: r2 =>
      i1 == i2 && tyBeq t1 t2 && valBeq v1 v2 && valFieldsBeq r1 r2
  | _, _ => false
termination_by a _ => sizeOf a
decreasing_by all_goals (simp_wf <;> omega)

end

/-- `reflect.DeepEqual` on two boxed `interface{}` values: both nil is
equal, nil against non-nil is not, and otherwise structural. -/
def optValBeq : Option Val → Option Val → Bool
  | none, none => true
  | some a, some b => valBeq a b
  | _, _ => false

mutual

/-- `reflect.Zero(t)`: the zero value of a type. -/
def zeroOfType : Ty → Val
  | .int => .int 0
  | .str => .str ""
  | .bool => .bool false
  | .iface => .ifaceNil
  | .ptr e => .ptrNil e
  | .strct n fs => .strct n (zeroOfFields fs)
termination_by t => sizeOf t
decreasing_by all_goals (simp_wf <;> omega)

/-- Zero values for a struct's field list. -/
def zeroOfFields : List (FieldInfo × Ty) → List (FieldInfo × Ty × Val)
  | [] => []
  | (i, t) :: rest => (i, t, zeroOfType t) :: zeroOfFields rest
termination_by fs => sizeOf fs
decreasing_by all_goals (simp_wf <;> omega)

end

/-- model.go `isFieldZero`: compare the boxed field value against the boxed
zero value of its type with `reflect.DeepEqual`. -/
def isFieldZero (f : Val) : Bool :=
  optValBeq f.interf (zeroOfType f.typeOf).interf

/-- model.go `zeroOf`: zero value used when copying a zero field; a pointer
field keeps the typed nil pointer, any other field re-reflects the boxed
zero (which, for an interface field, is the invalid value - in Go the
subsequent `Set` would panic; no claim exercises that corner). -/
def zeroOf (f : Val) : Val :=
  let ftz := zeroOfType f.typeOf
  if isPtr f then ftz
  else indirect (vOfInterf ftz)

/-- model.go `deepTypeOf`: the dynamic type of a non-zero interface value,
otherwise the value's own type. -/
def deepTypeOf (v : Val) : Ty :=
  let v1 := if isInterface v && !isFieldZero v then vOfInterf v else v
  v1.typeOf

/-- Lookup of a named field in a struct's field list (`FieldByName`). -/
def findField (name : String) : List (FieldInfo × Ty × Val) → Val
  | [] => .invalid
  | (i, _, v) :: rest => if i.Name == name then v else findField name rest

/-- `reflect.Value.FieldByName`: the zero `reflect.Value` when the receiver
is not a struct or has no such (direct) field. -/
def fieldByName (v : Val) (name : String) : Val :=
  match v with
  | .strct _ fs => findField name fs
  | _ => .invalid

/-- `Set` into a destination slot of declared type `t`: storing into an
interface-typed slot boxes the concrete value. -/
def assignVal (t : Ty) (x : Val) : Val :=
  if t.kind == .iface && !(isInterface x) then .ifaceV x else x

/-- In-place update `dv.FieldByName(name).Set(x)` of a struct value; a
missing field leaves the struct unchanged (in Go, `Set` on the zero
`reflect.Value` panics; no modelled flow reaches it). -/
def setFieldByName (v : Val) (name : String) (x : Val) : Val :=
  match v with
  | .strct n fs =>
      .strct n (fs.map (fun p => if p.1.Name == name then (p.1, p.2.1, assignVal p.2.1 x) else p))
  | v => v

/-- `dv.FieldByName(name).CanSet()`: the field exists directly and is
exported (the struct itself being addressable in every modelled flow). -/
def canSet (v : Val) (name : String) : Bool :=
  match v with
  | .strct _ fs => fs.any (fun p => p.1.Name == name && p.1.PkgPath == "")
  | _ => false

/-- Keep only exported fields (`f.PkgPath == ""`), as `modelFields` does. -/
def filterExported : List (FieldInfo × Ty × Val) → List (FieldInfo × Ty × Val)
  | [] => []
  | x :: rest => if x.1.PkgPath == "" then x :: filterExported rest else filterExported rest

/-- model.go / util.go `modelFields` fused with the per-field `FieldByName`
of the enclosing loops: the exported fields of `indirect v` paired with
their declared types and current values.  Not a struct: the empty list. -/
def modelFieldVals (v : Val) : List (FieldInfo × Ty × Val) :=
  match indirect v with
  | .strct _ fs => filterExported fs
  | _ => []

/-- Membership in the `NoTraverseTypeList` registry (a `map[reflect.Type]bool`
in the source, modelled as the list of registered types). -/
def containsTy (ntl : List Ty) (t : Ty) : Bool :=
  ntl.any (fun u => tyBeq u t)

/-- model.go `isNoTraverseType`: only struct-shaped values can be of a
registered no-traverse type; membership is checked on the deep type. -/
def isNoTraverseType (ntl : List Ty) (v : Val) : Bool :=
  if !isStruct v then false
  else containsTy ntl (deepTypeOf v)

/-- The two operation-level precondition errors of `structValue`. -/
inductive StructErr where
  | nilInput
  | notStruct
deriving DecidableEq, Repr

/-- model.go `structValue`: reject nil input and non-struct input, else the
indirected struct value. -/
def structValue (s : Option Val) : Except StructErr Val :=
  match s with
  | none => .error .nilInput
  | some sval =>
    let sv := indirect (valueOf (some sval))
    if !isStruct sv then .error .notStruct else .ok sv

/-! ## Size bookkeeping for the recursive traversals -/

theorem sizeOf_val_pos (v : Val) : 1 ≤ sizeOf v := by
  cases v <;> simp <;> omega

theorem sizeOf_indirect_le (v : Val) : sizeOf (indirect v) ≤ sizeOf v := by
  cases v <;> simp [indirect] <;> omega

theorem sizeOf_vOfInterf_le (v : Val) : sizeOf (vOfInterf v) ≤ sizeOf v := by
  cases v <;> simp [vOfInterf, Val.interf, valueOf] <;> omega

theorem sizeOf_interf_le (v : Val) : sizeOf v.interf ≤ 1 + sizeOf v := by
  cases v <;> simp [Val.interf] <;> omega

theorem sizeOf_filterExported_le (fs : List (FieldInfo × Ty × Val)) :
    sizeOf (filterExported fs) ≤ sizeOf fs := by
  induction fs with
  | nil => simp [filterExported]
  | cons x rest ih =>
      simp only [filterExported]
      split
      · simp
        omega
      · simp
        omega

theorem sizeOf_modelFieldVals_le (v : Val) : sizeOf (modelFieldVals v) ≤ sizeOf v := by
  unfold modelFieldVals
  have hind := sizeOf_indirect_le v
  have hpos := sizeOf_val_pos v
  cases h : indirect v <;> simp_all
  case strct n fs =>
    have := sizeOf_filterExported_le fs
    omega

theorem structValue_ok_eq {x sv : Val} (h : structValue (some x) = .ok sv) :
    sv = indirect x := by
  simp only [structValue, valueOf] at h
  split at h
  · exact absurd h (by simp)
  · exact (Except.ok.injEq _ _).mp h.symm

theorem structValue_ok_size {x sv : Val} (h : structValue (some x) = .ok sv) :
    sizeOf sv ≤ sizeOf x := by
  rw [structValue_ok_eq h]
  exact sizeOf_indirect_le x

/-! ## model.go IsZero / HasZero / IsZeroInFields -/

mutual

/-- model.go `IsZero`: nil input is zero; a non-struct input is never zero;
a struct is zero iff every exported, non-omitted field is zero, where a
no-traverse struct field is checked as one opaque value and any other
struct field recursively. -/
def IsZero (ntl : List Ty) (s : Option Val) : Bool :=
  match s with
  | none => true
  | some sval =>
    match h : structValue (some sval) with
    | .error _ => false
    | .ok sv => isZeroFields ntl (modelFieldVals sv)
termination_by 2 * sizeOf s
decreasing_by
  simp_wf
  have h1 := structValue_ok_size h
  have h2 := sizeOf_modelFieldVals_le sv
  omega

/-- The field loop of `IsZero`. -/
def isZeroFields (ntl : List Ty) : List (FieldInfo × Ty × Val) → Bool
  | [] => true
  | (f, _, fv) :: rest =>
    let tag := newTag f.Tag
    if tag.isOmitField then isZeroFields ntl rest
    else if isStruct fv then
      if isNoTraverseType ntl fv || tag.isNoTraverse then
        if !isFieldZero fv then false else isZeroFields ntl rest
      else
        if !IsZero ntl fv.interf then false else isZeroFields ntl rest
    else
      if !isFieldZero fv then false else isZeroFields ntl rest
termination_by fs => 2 * sizeOf fs + 1
decreasing_by
  all_goals simp_wf
  all_goals try omega
  all_goals (have hv := sizeOf_interf_le v; omega)

end

mutual

/-- model.go `HasZero`: nil input has a zero; a non-struct input does not;
a struct has a zero iff some exported, non-omitted field is zero, under the
same no-traverse rules as `IsZero`. -/
def HasZero (ntl : List Ty) (s : Option Val) : Bool :=
  match s with
  | none => true
  | some sval =>
    match h : structValue (some sval) with
    | .error _ => false
    | .ok sv => hasZeroFields ntl (modelFieldVals sv)
termination_by 2 * sizeOf s
decreasing_by
  simp_wf
  have h1 := structValue_ok_size h
  have h2 := sizeOf_modelFieldVals_le sv
  omega

/-- The field loop of `HasZero`. -/
def hasZeroFields (ntl : List Ty) : List (FieldInfo × Ty × Val) → Bool
  | [] => false
  | (f, _, fv) :: rest =>
    let tag := newTag f.Tag
    if tag.isOmitField then hasZeroFields ntl rest
    else if isStruct fv then
      if isNoTraverseType ntl fv || tag.isNoTraverse then
        if isFieldZero fv then true else hasZeroFields ntl rest
      else
        if HasZero ntl fv.interf then true else hasZeroFields ntl rest
    else
      if isFieldZero fv then true else hasZeroFields ntl rest
termination_by fs => 2 * sizeOf fs + 1
decreasing_by
  all_goals simp_wf
  all_goals try omega
  all_goals (have hv := sizeOf_interf_le v; omega)

end

/-- The name loop of `IsZeroInFields`: a missing field is skipped, a zero
field returns its name immediately, a non-zero field moves on. -/
def zeroInNames (sv : Val) : List String → String × Bool
  | [] => ("", false)
  | name :: rest =>
    let fv := fieldByName sv name
    if !isValid fv then zeroInNames sv rest
    else if isFieldZero fv then (name, true)
    else zeroInNames sv rest

/-- model.go `IsZeroInFields`: nil input or no requested names yields
`("", true)`; a non-struct input yields `("", false)`; otherwise the first
requested (and present) zero field is reported. -/
def IsZeroInFields (s : Option Val) (names : List String) : String × Bool :=
  if s.isNone || names.length == 0 then ("", true)
  else
    match structValue s with
    | .error _ => ("", false)
    | .ok sv => zeroInNames sv names

/-- The `var isVal bool` block shared by `doCopy`/`doMap`: a struct field
that is traversed is zero-checked recursively via `IsZero`, anything else
(including a no-traverse struct field) by literal zero equality. -/
def fieldIsVal (ntl : List Ty) (f : FieldInfo) (sfv : Val) : Bool :=
  let noTraverse := isNoTraverseType ntl sfv || (newTag f.Tag).isNoTraverse
  if isStruct sfv && !noTraverse then !IsZero ntl sfv.interf
  else !isFieldZero sfv

/-! ## Errors and per-field validation -/

/-- The errors `Copy`/`Clone` can produce: the three operation-level
precondition errors of `Copy`, the field-level errors of model.go
`valiadateCopyField` and util.go `validateCopyField`, and the failure of a
registered conversion function.  Go renders these as strings; here each
error keeps its identifying data. -/
inductive CopyErr where
  | srcOrDstNotStruct
  | dstNotPtr
  | srcIsEmpty
  | fieldNotExistsInDst (field : String)
  | kindMismatch (field : String) (srcKind dstKind : Kind)
  | typeMismatch (field : String) (srcTy dstTy : Ty)
  | fieldNotExists
  | convFailed (field : String) (msg : String)

/-- model.go `valiadateCopyField` (sic): the destination field must exist;
source and destination kinds, then deep types, must agree unless the
destination field is interface-typed. -/
def valiadateCopyField (f : FieldInfo) (sfv dfv : Val) : Option CopyErr :=
  if !isValid dfv then some (.fieldNotExistsInDst f.Name)
  else if sfv.kind != dfv.kind && !isInterface dfv then
    some (.kindMismatch f.Name sfv.kind dfv.kind)
  else
    let sfvt := deepTypeOf sfv
    let dfvt := deepTypeOf dfv
    if !tyBeq sfvt dfvt && !isInterface dfv then
      some (.typeMismatch f.Name sfvt dfvt)
    else none

/-- A registered conversion function (util.go `converterMap` entry):
`func(in reflect.Value) (reflect.Value, error)`. -/
abbrev Converter := Val → Except String Val

/-- The conversion registry, util.go `converterMap` (a two-level map keyed
by source then destination type in the source), flattened to a list of
(source type, destination type, function). -/
abbrev ConvMap := List (Ty × Ty × Converter)

/-- util.go `conversionExists`. -/
def conversionExists (cm : ConvMap) (srcType destType : Ty) : Bool :=
  cm.any (fun e => tyBeq e.1 srcType && tyBeq e.2.1 destType)

/-- `converterMap[srcType][destType]`, as a lookup. -/
def lookupConversion (cm : ConvMap) (srcType destType : Ty) : Option Converter :=
  match cm.find? (fun e => tyBeq e.1 srcType && tyBeq e.2.1 destType) with
  | some e => some e.2.2
  | none => none

/-- `reflect.Type.Elem` (panics in Go on kinds without an element type;
only reached under slice/map kind guards here). -/
def Ty.elemTy : Ty → Ty
  | .ptr e => e
  | t => t

/-- util.go `validateCopyField`: like `valiadateCopyField` but a registered
conversion for the exact field types (or, for same-kinded slices/maps, for
their element types) suppresses all mismatch checking, and a missing
destination field is the shared sentinel error `errFieldNotExists`. -/
def validateCopyField (cm : ConvMap) (f : FieldInfo) (sfv dfv : Val) : Option CopyErr :=
  if !isValid dfv then some .fieldNotExists
  else if conversionExists cm sfv.typeOf dfv.typeOf then none
  else if sfv.kind != dfv.kind && !isInterface dfv then
    some (.kindMismatch f.Name sfv.kind dfv.kind)
  else
    let sfvt := deepTypeOf sfv
    let dfvt := deepTypeOf dfv
    if (sfvt.kind == .slice || sfvt.kind == .map) && sfvt.kind == dfvt.kind
        && conversionExists cm sfvt.elemTy dfvt.elemTy then none
    else if !tyBeq sfvt dfvt && !isInterface dfv then
      some (.typeMismatch f.Name sfvt dfvt)
    else none

/-! ## model.go doCopy / copyVal (library version 0.4)

Go's `doCopy` mutates the destination struct through a pointer; here the
loop threads the destination struct value and returns it next to the
accumulated error list. -/

mutual

/-- model.go `doCopy`: indirect both sides and process the source's
exported fields in order. -/
def doCopy (ntl : List Ty) (dv sv : Val) : Val × List CopyErr :=
  copyLoop ntl (indirect dv) (modelFieldVals (indirect sv))
termination_by 2 * sizeOf sv + 1
decreasing_by
  simp_wf
  have h1 := sizeOf_modelFieldVals_le (indirect sv)
  have h2 := sizeOf_indirect_le sv
  omega

/-- The field loop of `doCopy`.  Each element is a source field (metadata,
declared type, current value); `dv` is the destination struct so far. -/
def copyLoop (ntl : List Ty) (dv : Val) :
    List (FieldInfo × Ty × Val) → Val × List CopyErr
  | [] => (dv, [])
  | (f, _, sfv) :: rest =>
    let tag := newTag f.Tag
    if tag.isOmitField then copyLoop ntl dv rest
    else
      let noTraverse := isNoTraverseType ntl sfv || tag.isNoTraverse
      let isVal := fieldIsVal ntl f sfv
      let dfv := fieldByName dv f.Name
      if !isVal then
        if !tag.isOmitEmpty then
          copyLoop ntl (setFieldByName dv f.Name (zeroOf dfv)) rest
        else copyLoop ntl dv rest
      else
        match valiadateCopyField f sfv dfv with
        | some err =>
          let res := copyLoop ntl dv rest
          (res.1, err :: res.2)
        | none =>
          if canSet dv f.Name then
            if isStruct sfv then
              if noTraverse then
                copyLoop ntl (setFieldByName dv f.Name (copyVal ntl sfv true)) rest
              else
                let nt := (indirect sfv).typeOf
                let inner := doCopy ntl (Val.ptrV nt (zeroOfType nt)) sfv
                let assigned := if isPtr sfv then Val.ptrV nt inner.1 else inner.1
                let res := copyLoop ntl (setFieldByName dv f.Name assigned) rest
                (res.1, inner.2 ++ res.2)
            else
              copyLoop ntl (setFieldByName dv f.Name (copyVal ntl sfv false)) rest
          else copyLoop ntl dv rest
termination_by fields => 2 * sizeOf fields
decreasing_by all_goals (simp_wf <;> omega)

/-- model.go `copyVal` on the modelled universe: unwrap an interface to its
dynamic value, note and strip a pointer, deep-copy a struct unless
`notraverse`, take any other value as is, and re-wrap a stripped pointer in
a fresh allocation.  The `reflect.Map`/`reflect.Slice` branches of the
source concern kinds outside the modelled universe. -/
def copyVal (ntl : List Ty) (fIn : Val) (notraverse : Bool) : Val :=
  let f1 := if isInterface fIn then vOfInterf fIn else fIn
  let ptr := isPtr f1
  let f2 := if ptr then indirect f1 else f1
  let nf :=
    match f2.kind with
    | .strct =>
      if notraverse then f2
      else
        let nt := f2.typeOf
        (doCopy ntl (Val.ptrV nt (zeroOfType nt)) f2).1
    | _ => f2
  if ptr then Val.ptrV nf.typeOf nf else nf
termination_by 2 * sizeOf fIn + 2
decreasing_by
  simp_wf
  have h1 := sizeOf_vOfInterf_le fIn
  have h2 := sizeOf_indirect_le (vOfInterf fIn)
  have h3 := sizeOf_indirect_le fIn
  split <;> split <;> omega

end

/-- The in-place effect of `doCopy` through the destination pointer: the
destination pointer now references the updated struct. -/
def rewrapDst (dv upd : Val) : Val :=
  match dv with
  | .ptrV e _ => .ptrV e upd
  | _ => dv

/-- model.go `Copy`: source and destination must be structs, the destination
a pointer, and the source not entirely zero; then the field-by-field copy
runs and its errors are returned.  The returned value is the destination
after the call (Go mutates it in place). -/
def Copy (ntl : List Ty) (dst src : Option Val) : Val × List CopyErr :=
  let sv := valueOf src
  let dv := valueOf dst
  if !isStruct sv || !isStruct dv then (dv, [.srcOrDstNotStruct])
  else if !isPtr dv then (dv, [.dstNotPtr])
  else if IsZero ntl src then (dv, [.srcIsEmpty])
  else
    let res := doCopy ntl dv sv
    (rewrapDst dv res.1, res.2)

/-- model.go `Clone`: validate the input with `structValue`, allocate a new
value of its deep type, copy into it - discarding the field errors of the
inner `doCopy` - and return the pointer to the clone. -/
def Clone (ntl : List Ty) (s : Option Val) : Except StructErr Val :=
  match structValue s with
  | .error err => .error err
  | .ok sv =>
    let st := deepTypeOf sv
    let dv := Val.ptrV st (zeroOfType st)
    let res := doCopy ntl dv sv
    .ok (Val.ptrV st res.1)

/-! ## model.go doMap / mapVal -/

/-- An entry value of the `map[string]interface{}` a `Map` call builds: a
boxed terminal Go value, a nested mapping (`doMap` result), or a pointer to
a nested mapping (a pointer-to-struct field is re-wrapped by `mapVal`). -/
inductive MapVal where
  | raw (v : Val)
  | obj (entries : List (String × MapVal))
  | ptrObj (entries : List (String × MapVal))

/-- Go map assignment `m[k] = v`: replace the binding for `k` when present,
otherwise add it. -/
def mapInsert (m : List (String × MapVal)) (k : String) (v : MapVal) :
    List (String × MapVal) :=
  if m.any (fun p => p.1 == k) then m.map (fun p => if p.1 == k then (k, v) else p)
  else m ++ [(k, v)]

/-- The `for k, v := range fmv { m[k] = v }` splice of `doMap` on an
anonymous embedded field. -/
def spliceAll (m : List (String × MapVal)) : List (String × MapVal) → List (String × MapVal)
  | [] => m
  | (k, v) :: rest => spliceAll (mapInsert m k v) rest

/-- Go map read `m[k]`. -/
def mapLookup (m : List (String × MapVal)) (k : String) : Option MapVal :=
  match m.find? (fun p => p.1 == k) with
  | some p => some p.2
  | none => none

mutual

/-- model.go `doMap`: indirect the source and process its exported fields
in order into a `map[string]interface{}`. -/
def doMap (ntl : List Ty) (sv : Val) : List (String × MapVal) :=
  mapLoop ntl [] (modelFieldVals (indirect sv))
termination_by 2 * sizeOf sv + 1
decreasing_by
  simp_wf
  have h1 := sizeOf_modelFieldVals_le (indirect sv)
  have h2 := sizeOf_indirect_le sv
  omega

/-- The field loop of `doMap`: key is the tag name when non-empty, else the
field name; a zero field without `omitempty` is included with its zero
value and with `omitempty` is omitted; a traversed nested struct maps to a
nested mapping, spliced into the parent when the field is anonymous. -/
def mapLoop (ntl : List Ty) (m : List (String × MapVal)) :
    List (FieldInfo × Ty × Val) → List (String × MapVal)
  | [] => m
  | (f, _, fv) :: rest =>
    let tag := newTag f.Tag
    if tag.isOmitField then mapLoop ntl m rest
    else
      let keyName := if !isStringEmpty tag.Name then tag.Name else f.Name
      let noTraverse := isNoTraverseType ntl fv || tag.isNoTraverse
      let isVal := fieldIsVal ntl f fv
      if !isVal then
        if !tag.isOmitEmpty then
          mapLoop ntl (mapInsert m keyName (.raw (zeroOf fv))) rest
        else mapLoop ntl m rest
      else if isStruct fv then
        if noTraverse then
          mapLoop ntl (mapInsert m keyName (mapVal ntl fv true)) rest
        else
          let fmv := doMap ntl fv
          if f.Anonymous then mapLoop ntl (spliceAll m fmv) rest
          else mapLoop ntl (mapInsert m keyName (.obj fmv)) rest
      else mapLoop ntl (mapInsert m keyName (mapVal ntl fv false)) rest
termination_by fields => 2 * sizeOf fields
decreasing_by all_goals (simp_wf <;> omega)

/-- model.go `mapVal` on the modelled universe: unwrap an interface, note
and strip a pointer, turn a traversed struct into its mapping, keep any
other value as a boxed terminal, and re-wrap a stripped pointer.  The
`reflect.Map`/`reflect.Slice` branches of the source concern kinds outside
the modelled universe. -/
def mapVal (ntl : List Ty) (fIn : Val) (notraverse : Bool) : MapVal :=
  let f1 := if isInterface fIn then vOfInterf fIn else fIn
  let ptr := isPtr f1
  let f2 := if ptr then indirect f1 else f1
  let nf : MapVal :=
    match f2.kind with
    | .strct => if notraverse then .raw f2 else .obj (doMap ntl f2)
    | _ => .raw f2
  if ptr then
    match nf with
    | .raw v => .raw (Val.ptrV v.typeOf v)
    | .obj es => .ptrObj es
    | other => other
  else nf
termination_by 2 * sizeOf fIn + 2
decreasing_by
  simp_wf
  have h1 := sizeOf_vOfInterf_le fIn
  have h2 := sizeOf_indirect_le (vOfInterf fIn)
  have h3 := sizeOf_indirect_le fIn
  split <;> split <;> omega

end

/-- model.go `Map`: validate the input with `structValue`, then flatten it
field by field. -/
def Map (ntl : List Ty) (s : Option Val) : Except StructErr (List (String × MapVal)) :=
  match structValue s with
  | .error e => .error e
  | .ok sv => .ok (doMap ntl sv)

/-! ## The conversion-enabled copy engine

util.go (which belongs to the later, conversion-enabled library version)
contains `validateCopyField` and `conversionExists`, but the `doCopy` that
consults the conversion registry, and the registry itself with
`AddConversion`/`RemoveConversion`, are not part of the sources; the engine
below therefore models the registry consultation from the spec. -/

mutual

/-- Modelled from the spec: the copy engine of the conversion-enabled
library version (its `doCopy` is not under src/).  It is `doCopy` with
validation by util.go `validateCopyField` and, per the spec, a registered
conversion for (source field type → destination field type) applied in
place of structural copying; when the conversion function fails, its error
is attached to the field's slot in the error collection and the field is
skipped with the destination left unmodified. -/
def doCopyConv (ntl : List Ty) (cm : ConvMap) (dv sv : Val) : Val × List CopyErr :=
  copyLoopConv ntl cm (indirect dv) (modelFieldVals (indirect sv))
termination_by 2 * sizeOf sv + 1
decreasing_by
  simp_wf
  have h1 := sizeOf_modelFieldVals_le (indirect sv)
  have h2 := sizeOf_indirect_le sv
  omega

/-- Modelled from the spec: the field loop of `doCopyConv` (see there). -/
def copyLoopConv (ntl : List Ty) (cm : ConvMap) (dv : Val) :
    List (FieldInfo × Ty × Val) → Val × List CopyErr
  | [] => (dv, [])
  | (f, _, sfv) :: rest =>
    let tag := newTag f.Tag
    if tag.isOmitField then copyLoopConv ntl cm dv rest
    else
      let noTraverse := isNoTraverseType ntl sfv || tag.isNoTraverse
      let isVal := fieldIsVal ntl f sfv
      let dfv := fieldByName dv f.Name
      if !isVal then
        if !tag.isOmitEmpty then
          copyLoopConv ntl cm (setFieldByName dv f.Name (zeroOf dfv)) rest
        else copyLoopConv ntl cm dv rest
      else
        match validateCopyField cm f sfv dfv with
        | some err =>
          let res := copyLoopConv ntl cm dv rest
          (res.1, err :: res.2)
        | none =>
          if canSet dv f.Name then
            match lookupConversion cm sfv.typeOf dfv.typeOf with
            | some conv =>
              match conv sfv with
              | .error msg =>
                let res := copyLoopConv ntl cm dv rest
                (res.1, CopyErr.convFailed f.Name msg :: res.2)
              | .ok out =>
                copyLoopConv ntl cm (setFieldByName dv f.Name out) rest
            | none =>
              if isStruct sfv then
                if noTraverse then
                  copyLoopConv ntl cm (setFieldByName dv f.Name (copyVal ntl sfv true)) rest
                else
                  let nt := (indirect sfv).typeOf
                  let inner := doCopyConv ntl cm (Val.ptrV nt (zeroOfType nt)) sfv
                  let assigned := if isPtr sfv then Val.ptrV nt inner.1 else inner.1
                  let res := copyLoopConv ntl cm (setFieldByName dv f.Name assigned) rest
                  (res.1, inner.2 ++ res.2)
              else
                copyLoopConv ntl cm (setFieldByName dv f.Name (copyVal ntl sfv false)) rest
          else copyLoopConv ntl cm dv rest
termination_by fields => 2 * sizeOf fields
decreasing_by all_goals (simp_wf <;> omega)

end

/-- Modelled from the spec: `Copy` of the conversion-enabled library
version - the same preconditions as model.go `Copy`, with the copy
delegated to `doCopyConv`. -/
def CopyConv (ntl : List Ty) (cm : ConvMap) (dst src : Option Val) : Val × List CopyErr :=
  let sv := valueOf src
  let dv := valueOf dst
  if !isStruct sv || !isStruct dv then (dv, [.srcOrDstNotStruct])
  else if !isPtr dv then (dv, [.dstNotPtr])
  else if IsZero ntl src then (dv, [.srcIsEmpty])
  else
    let res := doCopyConv ntl cm dv sv
    (rewrapDst dv res.1, res.2)

/-! ## Facts about the string fragment -/

theorem string_mk_data (s : String) : String.mk s.data = s := by
  cases s
  rfl

theorem splitChar_ne_nil (c : Char) (l : List Char) : splitChar c l ≠ [] := by
  cases l with
  | nil => simp [splitChar]
  | cons x rest =>
    simp only [splitChar]
    split
    · simp
    · split <;> simp

theorem joinChar_splitChar (c : Char) (l : List Char) :
    joinChar c (splitChar c l) = l := by
  induction l with
  | nil => rfl
  | cons x rest ih =>
    simp only [splitChar]
    split
    · rename_i hx
      rcases hS : splitChar c rest with _ | ⟨hd, tl⟩
      · exact absurd hS (splitChar_ne_nil c rest)
      · rw [hS] at ih
        simp only [joinChar, ih.symm]
        simp only [List.nil_append]
        have : x = c := by simpa using hx
        rw [this]
    · rcases hS : splitChar c rest with _ | ⟨hd, tl⟩
      · exact absurd hS (splitChar_ne_nil c rest)
      · rw [hS] at ih
        cases tl with
        | nil => simpa [joinChar] using congrArg (x :: ·) ih
        | cons t0 ts => simpa [joinChar] using congrArg (x :: ·) ih

theorem isPrefixOf_append_self (l t : List Char) : l.isPrefixOf (l ++ t) = true := by
  induction l with
  | nil => simp [List.isPrefixOf]
  | cons a l ih => simp [List.isPrefixOf, ih]

theorem subList_of_prefix {s pat : List Char} (h : pat.isPrefixOf s = true) :
    subList s pat = true := by
  rw [subList.eq_def, h, Bool.true_or]

theorem subList_append_right {t : List Char} (s : List Char) {pat : List Char}
    (h : subList t pat = true) : subList (s ++ t) pat = true := by
  induction s with
  | nil => simpa using h
  | cons a s ih =>
    rw [List.cons_append, subList.eq_def]
    simp only [ih, Bool.or_true]

theorem goJoin_contains_of_mem {x : String} {opts : List String} (h : x ∈ opts) :
    strContains (goJoin opts) x = true := by
  induction opts with
  | nil => cases h
  | cons o rest ih =>
    rcases List.mem_cons.mp h with rfl | hmem
    · cases rest with
      | nil => exact subList_of_prefix (by simpa [goJoin, joinChar] using isPrefixOf_append_self x.data [])
      | cons r rs =>
        refine subList_of_prefix ?_
        simp only [strContains, goJoin, joinChar, List.map_cons]
        exact isPrefixOf_append_self x.data _
    · cases rest with
      | nil => cases hmem
      | cons r rs =>
        have hr := ih hmem
        simp only [strContains, goJoin] at hr ⊢
        simp only [List.map_cons, joinChar]
        have : o.data ++ ',' :: joinChar ',' (r.data :: rs.map String.data)
            = (o.data ++ [',']) ++ joinChar ',' (r.data :: rs.map String.data) := by
          simp
        rw [this]
        exact subList_append_right _ hr

/-! ## Claim C7: tag-string interpretation -/

/-- C7: the tag interpreter splits on commas with the first token as the
target name: the empty annotation yields the all-default directive; the
single-dash annotation yields the omit-entirely directive with no options;
a leading comma yields an empty target name with the remainder as options;
and each option flag is activated by substring containment of its token
anywhere in the options portion, in particular wherever it occurs in the
option token list, independent of order. -/
theorem c7_tag_parsing :
    (newTag "" = ⟨"", ""⟩
      ∧ (newTag "").isOmitField = false
      ∧ (newTag "").isOmitEmpty = false
      ∧ (newTag "").isNoTraverse = false)
    ∧ ((newTag "-").isOmitField = true ∧ (newTag "-").Options = "")
    ∧ (∀ b : String, newTag ("," ++ b) = ⟨"", b⟩)
    ∧ (∀ s : String, (newTag s).Name = (goSplit s).headD ""
        ∧ (newTag s).Options = goJoin (goSplit s).tail)
    ∧ (∀ nm : String, ∀ opts : List String, OmitEmpty ∈ opts →
        (ModelTag.mk nm (goJoin opts)).isOmitEmpty = true)
    ∧ (∀ nm : String, ∀ opts : List String, NoTraverse ∈ opts →
        (ModelTag.mk nm (goJoin opts)).isNoTraverse = true) := by
  refine ⟨⟨by decide, by decide, by decide, by decide⟩, ⟨by decide, by decide⟩, ?_, ?_, ?_, ?_⟩
  · intro b
    have hdata : ("," ++ b).data = ',' :: b.data := by simp [String.data_append]
    have hsplit : splitChar ',' (("," ++ b).data) = [] :: splitChar ',' b.data := by
      rw [hdata]
      simp [splitChar]
    simp only [newTag, goSplit, goJoin, hsplit, List.map_cons, List.headD_cons,
      List.tail_cons]
    have hcomp : (String.data ∘ fun l => String.mk l) = id := funext (fun _ => rfl)
    have hmm : ((splitChar ',' b.data).map (fun l => String.mk l)).map String.data
        = splitChar ',' b.data := by
      rw [List.map_map, hcomp, List.map_id]
    rw [hmm, joinChar_splitChar, string_mk_data]
  · intro s
    exact ⟨rfl, rfl⟩
  · intro nm opts h
    exact goJoin_contains_of_mem h
  · intro nm opts h
    exact goJoin_contains_of_mem h

/-! ## Concrete fixtures used by witnesses and counterexamples -/

/-- An exported int field `I` with no tag. -/
def fInt : FieldInfo := ⟨"I", "", false, ""⟩

/-- An exported string field `S` with no tag. -/
def fStr : FieldInfo := ⟨"S", "", false, ""⟩

/-- `type Two struct { I int; S string }`. -/
def tyTwo : Ty := .strct "Two" [(fInt, .int), (fStr, .str)]

/-- The zero value of `Two`. -/
def zeroTwo : Val := .strct "Two" [(fInt, .int, .int 0), (fStr, .str, .str "")]

/-- `Two{I: 7, S: "go"}`. -/
def valTwo : Val := .strct "Two" [(fInt, .int, .int 7), (fStr, .str, .str "go")]

/-- Witness for C7 at concrete annotations: option order does not matter and
the edge annotations parse as claimed. -/
theorem c7_tag_parsing_witness :
    newTag ",omitempty" = ⟨"", "omitempty"⟩
    ∧ (ModelTag.mk "n" (goJoin ["notraverse", "omitempty"])).isOmitEmpty = true
    ∧ (ModelTag.mk "n" (goJoin ["omitempty", "notraverse"])).isOmitEmpty = true
    ∧ (ModelTag.mk "n" (goJoin ["notraverse", "omitempty"])).isNoTraverse = true := by
  refine ⟨?_, ?_, ?_, ?_⟩
  · exact c7_tag_parsing.2.2.1 "omitempty"
  · exact c7_tag_parsing.2.2.2.2.1 "n" _ (by simp [OmitEmpty])
  · exact c7_tag_parsing.2.2.2.2.1 "n" _ (by simp [OmitEmpty])
  · exact c7_tag_parsing.2.2.2.2.2 "n" _ (by simp [NoTraverse])

/-! ## Claim C9: IsZeroInFields preconditions -/

/-- C9: `IsZeroInFields` answers `("", true)` for nil input or an empty name
list - the same shape as finding a zero field - and `("", false)` for a
non-struct input, in both cases before any per-name processing. -/
theorem c9_iszeroinfields_preconditions :
    (∀ names : List String, IsZeroInFields none names = ("", true))
    ∧ (∀ s : Option Val, IsZeroInFields s [] = ("", true))
    ∧ (∀ (v : Val) (names : List String), isStruct (indirect v) = false →
        names ≠ [] → IsZeroInFields (some v) names = ("", false)) := by
  refine ⟨?_, ?_, ?_⟩
  · intro names
    simp [IsZeroInFields]
  · intro s
    simp [IsZeroInFields]
  · intro v names h hne
    have hlen : (names.length == 0) = false := by
      rw [beq_eq_false_iff_ne]
      exact fun hh => hne (List.length_eq_zero.mp hh)
    simp [IsZeroInFields, hlen, structValue, valueOf, h]

/-- Witness for C9: `Two{}`-shaped inputs and a plain int input. -/
theorem c9_iszeroinfields_preconditions_witness :
    IsZeroInFields none ["I"] = ("", true)
    ∧ IsZeroInFields (some valTwo) [] = ("", true)
    ∧ IsZeroInFields (some (Val.int 3)) ["I"] = ("", false) :=
  ⟨c9_iszeroinfields_preconditions.1 ["I"],
   c9_iszeroinfields_preconditions.2.1 (some valTwo),
   c9_iszeroinfields_preconditions.2.2 (Val.int 3) ["I"] (by decide) (by decide)⟩

/-! ## Claim C10: Clone discards the inner error list -/

/-- C10: `Clone` returns a nil error for every input `structValue` accepts,
its result depending only on the copied value and never on the inner
`doCopy` error list (which it discards); the only errors it returns are the
`structValue` precondition errors, with no value alongside. -/
theorem c10_clone_discards_field_errors :
    (∀ (ntl : List Ty) (s : Option Val) (sv : Val), structValue s = .ok sv →
      Clone ntl s = .ok (Val.ptrV (deepTypeOf sv)
        (doCopy ntl (Val.ptrV (deepTypeOf sv) (zeroOfType (deepTypeOf sv))) sv).1))
    ∧ (∀ (ntl : List Ty) (s : Option Val) (e : StructErr), structValue s = .error e →
      Clone ntl s = .error e) := by
  constructor
  · intro ntl s sv h
    simp [Clone, h]
  · intro ntl s e h
    simp [Clone, h]

/-- Witness for C10: a non-nil struct input is cloned with nil error; nil
and non-struct inputs produce the two precondition errors. -/
theorem c10_clone_discards_field_errors_witness :
    Clone [] (some valTwo) = .ok (Val.ptrV (deepTypeOf valTwo)
      (doCopy [] (Val.ptrV (deepTypeOf valTwo) (zeroOfType (deepTypeOf valTwo))) valTwo).1)
    ∧ Clone [] none = .error .nilInput
    ∧ Clone [] (some (Val.int 3)) = .error .notStruct :=
  ⟨c10_clone_discards_field_errors.1 [] (some valTwo) valTwo rfl,
   c10_clone_discards_field_errors.2 [] none .nilInput rfl,
   c10_clone_discards_field_errors.2 [] (some (Val.int 3)) .notStruct rfl⟩

/-! ## Claim C1: rejection of an entirely zero source -/

/-- C1 counterexample: `Clone` does not refuse an entirely zero-valued
source; it processes it and returns the clone with nil error. -/
theorem c1_counterexample_clone_accepts_zero :
    IsZero [] (some zeroTwo) = true
    ∧ Clone [] (some zeroTwo) = .ok (.ptrV tyTwo zeroTwo) := by
  constructor
  · simp [IsZero, isZeroFields, zeroTwo, fInt, fStr, structValue, valueOf, indirect,
      isStruct, isInterface, vOfInterf, Val.interf, Val.kind, modelFieldVals,
      filterExported, newTag, goSplit, goJoin, splitChar, joinChar,
      ModelTag.isOmitField, OmitField, isFieldZero, optValBeq, valBeq, Val.typeOf,
      zeroOfType, isNoTraverseType, ModelTag.isNoTraverse, ModelTag.isExists,
      strContains, subList, NoTraverse]
  · simp [Clone, structValue, valueOf, indirect, isStruct, isInterface, vOfInterf,
      Val.interf, Val.kind, deepTypeOf, Val.typeOf, zeroTwo, tyTwo, fInt, fStr,
      zeroOfType, zeroOfFields, doCopy, copyLoop, modelFieldVals, filterExported,
      newTag, goSplit, goJoin, splitChar, joinChar, ModelTag.isOmitField, OmitField,
      ModelTag.isOmitEmpty, ModelTag.isExists, OmitEmpty, strContains, subList,
      isFieldZero, optValBeq, valBeq, isNoTraverseType, ModelTag.isNoTraverse,
      NoTraverse, IsZero, isZeroFields, fieldByName, findField, setFieldByName,
      assignVal, canSet, zeroOf, isPtr, fieldIsVal, Ty.kind]

/-- C1 as amended: `Copy` refuses an entirely zero-valued source - for any
struct source and any struct destination passed as a pointer it returns
exactly the one operation-level empty-source error and leaves the
destination untouched, with no per-field processing; `Clone`, however, does
not refuse such a source and returns the clone with nil error. -/
theorem c1_amended_zero_source_rejection :
    (∀ (ntl : List Ty) (dval sval : Val),
        isStruct sval = true → isStruct dval = true → isPtr dval = true →
        IsZero ntl (some sval) = true →
        Copy ntl (some dval) (some sval) = (dval, [CopyErr.srcIsEmpty]))
    ∧ (∀ (ntl : List Ty) (s : Option Val) (sv : Val), structValue s = .ok sv →
        (Clone ntl s).isOk = true) := by
  constructor
  · intro ntl dval sval hs hd hp hz
    simp [Copy, valueOf, hs, hd, hp, hz]
  · intro ntl s sv h
    simp [Clone, h, Except.isOk, Except.toBool]

/-- Witness for C1 as amended: copying the zero `Two` into a `*Two`
destination yields exactly the empty-source error and leaves the
destination as it was; cloning the zero `Two` succeeds. -/
theorem c1_amended_zero_source_rejection_witness :
    Copy [] (some (Val.ptrV tyTwo valTwo)) (some zeroTwo)
      = (Val.ptrV tyTwo valTwo, [CopyErr.srcIsEmpty])
    ∧ (Clone [] (some zeroTwo)).isOk = true := by
  constructor
  · refine c1_amended_zero_source_rejection.1 [] (Val.ptrV tyTwo valTwo) zeroTwo
      (by decide) (by decide) (by decide) ?_
    simp [IsZero, isZeroFields, zeroTwo, fInt, fStr, structValue, valueOf, indirect,
      isStruct, isInterface, vOfInterf, Val.interf, Val.kind, modelFieldVals,
      filterExported, newTag, goSplit, goJoin, splitChar, joinChar,
      ModelTag.isOmitField, OmitField, isFieldZero, optValBeq, valBeq, Val.typeOf,
      zeroOfType, isNoTraverseType, ModelTag.isNoTraverse, ModelTag.isExists,
      strContains, subList, NoTraverse]
  · exact c1_amended_zero_source_rejection.2 [] (some zeroTwo) zeroTwo rfl

/-! ## Claim C3: the IsZero contract -/

theorem IsZero_some_error {ntl : List Ty} {v : Val} {e : StructErr}
    (h : structValue (some v) = .error e) : IsZero ntl (some v) = false := by
  rw [IsZero]
  split <;> simp_all

theorem IsZero_some_ok {ntl : List Ty} {v sv : Val}
    (h : structValue (some v) = .ok sv) :
    IsZero ntl (some v) = isZeroFields ntl (modelFieldVals sv) := by
  rw [IsZero]
  split <;> simp_all

/-- The claim's per-field zero test, following the spec's words: an
omit-entirely field passes vacuously; a no-traverse-type or
no-traverse-tagged nested record field is checked as a single opaque value
by literal zero equality; any other nested record field is checked by
recursive `IsZero`; every other field by literal equality to its type's
zero value. -/
def specFieldZero (ntl : List Ty) (x : FieldInfo × Ty × Val) : Bool :=
  let tag := newTag x.1.Tag
  if tag.isOmitField then true
  else if isStruct x.2.2 then
    if isNoTraverseType ntl x.2.2 || tag.isNoTraverse then isFieldZero x.2.2
    else IsZero ntl x.2.2.interf
  else isFieldZero x.2.2

theorem isZeroFields_cons (ntl : List Ty) (x : FieldInfo × Ty × Val)
    (rest : List (FieldInfo × Ty × Val)) :
    isZeroFields ntl (x :: rest) = (specFieldZero ntl x && isZeroFields ntl rest) := by
  rcases x with ⟨f, t, fv⟩
  cases h1 : (newTag f.Tag).isOmitField <;>
    cases h2 : isStruct fv <;>
      cases h3 : isNoTraverseType ntl fv <;>
        cases h4 : (newTag f.Tag).isNoTraverse <;>
          cases h5 : isFieldZero fv <;>
            cases h6 : IsZero ntl fv.interf <;>
              simp [isZeroFields, specFieldZero, h1, h2, h3, h4, h5, h6]

theorem isZeroFields_eq_all (ntl : List Ty) (fs : List (FieldInfo × Ty × Val)) :
    isZeroFields ntl fs = fs.all (specFieldZero ntl) := by
  induction fs with
  | nil => simp [isZeroFields]
  | cons x rest ih => rw [isZeroFields_cons, List.all_cons, ih]

/-- C3: `IsZero` is true on nil input; false on every non-record input -
including a genuinely zero scalar; and on a record input it is true iff
every visible field passes the claim's per-field zero test
(`specFieldZero`): no-traverse nested records opaquely, other nested
records recursively, all other fields by literal zero equality. -/
theorem c3_iszero_spec :
    (∀ ntl : List Ty, IsZero ntl none = true)
    ∧ (∀ (ntl : List Ty) (v : Val) (e : StructErr), structValue (some v) = .error e →
        IsZero ntl (some v) = false)
    ∧ (∀ ntl : List Ty, IsZero ntl (some (Val.int 0)) = false)
    ∧ (∀ (ntl : List Ty) (v sv : Val), structValue (some v) = .ok sv →
        (IsZero ntl (some v) = true ↔
          ∀ x ∈ modelFieldVals sv, specFieldZero ntl x = true)) := by
  refine ⟨?_, ?_, ?_, ?_⟩
  · intro ntl
    rw [IsZero]
  · intro ntl v e h
    exact IsZero_some_error h
  · intro ntl
    exact @IsZero_some_error ntl (Val.int 0) StructErr.notStruct rfl
  · intro ntl v sv h
    rw [IsZero_some_ok h, isZeroFields_eq_all]
    exact List.all_eq_true

/-- Witness for C3: the zero scalar quirk, a non-zero and a zero record. -/
theorem c3_iszero_spec_witness :
    IsZero [] (some (Val.int 0)) = false
    ∧ IsZero [] (some (Val.str "hi")) = false
    ∧ (IsZero [] (some zeroTwo) = true ↔
        ∀ x ∈ modelFieldVals zeroTwo, specFieldZero [] x = true) := by
  refine ⟨c3_iszero_spec.2.2.1 [], ?_, ?_⟩
  · exact c3_iszero_spec.2.1 [] (Val.str "hi") .notStruct rfl
  · exact c3_iszero_spec.2.2.2 [] zeroTwo zeroTwo rfl

/-! ## Claim C8: the HasZero contract -/

theorem HasZero_some_error {ntl : List Ty} {v : Val} {e : StructErr}
    (h : structValue (some v) = .error e) : HasZero ntl (some v) = false := by
  rw [HasZero]
  split <;> simp_all

theorem HasZero_some_ok {ntl : List Ty} {v sv : Val}
    (h : structValue (some v) = .ok sv) :
    HasZero ntl (some v) = hasZeroFields ntl (modelFieldVals sv) := by
  rw [HasZero]
  split <;> simp_all

/-- The claim's per-field has-zero test: an omit-entirely field never
counts; a no-traverse-type or no-traverse-tagged nested record field
counts when it is literally zero as one opaque value; any other nested
record field counts when `HasZero` holds of it recursively; every other
field counts when literally zero. -/
def specFieldHasZero (ntl : List Ty) (x : FieldInfo × Ty × Val) : Bool :=
  let tag := newTag x.1.Tag
  if tag.isOmitField then false
  else if isStruct x.2.2 then
    if isNoTraverseType ntl x.2.2 || tag.isNoTraverse then isFieldZero x.2.2
    else HasZero ntl x.2.2.interf
  else isFieldZero x.2.2

theorem hasZeroFields_cons (ntl : List Ty) (x : FieldInfo × Ty × Val)
    (rest : List (FieldInfo × Ty × Val)) :
    hasZeroFields ntl (x :: rest) = (specFieldHasZero ntl x || hasZeroFields ntl rest) := by
  rcases x with ⟨f, t, fv⟩
  cases h1 : (newTag f.Tag).isOmitField <;>
    cases h2 : isStruct fv <;>
      cases h3 : isNoTraverseType ntl fv <;>
        cases h4 : (newTag f.Tag).isNoTraverse <;>
          cases h5 : isFieldZero fv <;>
            cases h6 : HasZero ntl fv.interf <;>
              simp [hasZeroFields, specFieldHasZero, h1, h2, h3, h4, h5, h6]

theorem hasZeroFields_eq_any (ntl : List Ty) (fs : List (FieldInfo × Ty × Val)) :
    hasZeroFields ntl fs = fs.any (specFieldHasZero ntl) := by
  induction fs with
  | nil => simp [hasZeroFields]
  | cons x rest ih => rw [hasZeroFields_cons, List.any_cons, ih]

/-- C8: `HasZero` is true on nil input, and on a record input it is true
iff at least one visible field passes the claim's per-field has-zero test
(`specFieldHasZero`, with the same no-traverse and recursion rules as
`IsZero` but dually quantified), hence false exactly when every visible
field fails it. -/
theorem c8_haszero_dual :
    (∀ ntl : List Ty, HasZero ntl none = true)
    ∧ (∀ (ntl : List Ty) (v sv : Val), structValue (some v) = .ok sv →
        ((HasZero ntl (some v) = true ↔
            ∃ x ∈ modelFieldVals sv, specFieldHasZero ntl x = true)
          ∧ (HasZero ntl (some v) = false ↔
            ∀ x ∈ modelFieldVals sv, specFieldHasZero ntl x = false))) := by
  constructor
  · intro ntl
    rw [HasZero]
  · intro ntl v sv h
    rw [HasZero_some_ok h, hasZeroFields_eq_any]
    exact ⟨List.any_eq_true, by simp [List.any_eq_false]⟩

/-- Witness for C8: a record with one zero and one non-zero field has a
zero; the all-non-zero record does not. -/
theorem c8_haszero_dual_witness :
    HasZero [] none = true
    ∧ (HasZero [] (some valTwo) = false ↔
        ∀ x ∈ modelFieldVals valTwo, specFieldHasZero [] x = false) := by
  refine ⟨c8_haszero_dual.1 [], ?_⟩
  exact (c8_haszero_dual.2 [] valTwo valTwo rfl).2

/-! ## Claim C6: handling of zero-valued fields in Copy and Map -/

/-- C6: for a visible field whose value is zero - (i) `Copy` without the
omit-on-zero directive explicitly writes the destination field's zero value
and moves on; (ii) with the directive it moves on leaving the destination
field exactly as it was; (iii) the written value is the destination field
type's zero value (for every non-interface, valid destination field);
(iv) `Map` without the directive binds the key to the zero value; (v) with
the directive it omits the key from the mapping entirely. -/
theorem c6_zero_field_handling :
    (∀ (ntl : List Ty) (dv : Val) (f : FieldInfo) (t : Ty) (sfv : Val)
        (rest : List (FieldInfo × Ty × Val)),
      (newTag f.Tag).isOmitField = false →
      fieldIsVal ntl f sfv = false →
      (newTag f.Tag).isOmitEmpty = false →
      copyLoop ntl dv ((f, t, sfv) :: rest)
        = copyLoop ntl (setFieldByName dv f.Name (zeroOf (fieldByName dv f.Name))) rest)
    ∧ (∀ (ntl : List Ty) (dv : Val) (f : FieldInfo) (t : Ty) (sfv : Val)
        (rest : List (FieldInfo × Ty × Val)),
      (newTag f.Tag).isOmitField = false →
      fieldIsVal ntl f sfv = false →
      (newTag f.Tag).isOmitEmpty = true →
      copyLoop ntl dv ((f, t, sfv) :: rest) = copyLoop ntl dv rest)
    ∧ (∀ dfv : Val, dfv.kind ≠ .iface → dfv.kind ≠ .invalid →
        zeroOf dfv = zeroOfType dfv.typeOf)
    ∧ (∀ (ntl : List Ty) (m : List (String × MapVal)) (f : FieldInfo) (t : Ty)
        (fv : Val) (rest : List (FieldInfo × Ty × Val)),
      (newTag f.Tag).isOmitField = false →
      fieldIsVal ntl f fv = false →
      (newTag f.Tag).isOmitEmpty = false →
      mapLoop ntl m ((f, t, fv) :: rest)
        = mapLoop ntl (mapInsert m
            (if !isStringEmpty (newTag f.Tag).Name then (newTag f.Tag).Name else f.Name)
            (.raw (zeroOf fv))) rest)
    ∧ (∀ (ntl : List Ty) (m : List (String × MapVal)) (f : FieldInfo) (t : Ty)
        (fv : Val) (rest : List (FieldInfo × Ty × Val)),
      (newTag f.Tag).isOmitField = false →
      fieldIsVal ntl f fv = false →
      (newTag f.Tag).isOmitEmpty = true →
      mapLoop ntl m ((f, t, fv) :: rest) = mapLoop ntl m rest) := by
  refine ⟨?_, ?_, ?_, ?_, ?_⟩
  · intro ntl dv f t sfv rest h1 h2 h3
    simp [copyLoop, h1, h2, h3]
  · intro ntl dv f t sfv rest h1 h2 h3
    simp [copyLoop, h1, h2, h3]
  · intro dfv hni hnv
    cases dfv <;> simp_all [zeroOf, isPtr, Val.kind, Val.typeOf, vOfInterf,
      Val.interf, valueOf, indirect, zeroOfType]
  · intro ntl m f t fv rest h1 h2 h3
    simp [mapLoop, h1, h2, h3]
  · intro ntl m f t fv rest h1 h2 h3
    simp [mapLoop, h1, h2, h3]

/-- Witness for C6: a zero int field without and with `omitempty`, in both
the copy loop and the map loop; and the zeroed value is the type's zero. -/
theorem c6_zero_field_handling_witness :
    copyLoop [] valTwo [(fInt, .int, .int 0)]
      = copyLoop [] (setFieldByName valTwo "I" (zeroOf (fieldByName valTwo "I"))) []
    ∧ copyLoop [] valTwo [(⟨"I", "", false, ",omitempty"⟩, .int, .int 0)]
      = copyLoop [] valTwo []
    ∧ zeroOf (Val.int 3) = zeroOfType (Val.int 3).typeOf
    ∧ mapLoop [] [] [(fInt, .int, .int 0)]
      = mapLoop [] (mapInsert [] "I" (.raw (zeroOf (Val.int 0)))) []
    ∧ mapLoop [] [] [(⟨"I", "", false, ",omitempty"⟩, .int, .int 0)]
      = mapLoop [] [] [] := by
  refine ⟨?_, ?_, ?_, ?_, ?_⟩
  · exact c6_zero_field_handling.1 [] valTwo fInt .int (.int 0) []
      (by decide) (by simp [fieldIsVal, isStruct, isInterface, Val.kind, vOfInterf, Val.interf, valueOf, indirect, isFieldZero, optValBeq, valBeq, Val.typeOf, zeroOfType, fInt]) (by decide)
  · exact c6_zero_field_handling.2.1 [] valTwo ⟨"I", "", false, ",omitempty"⟩ .int (.int 0) []
      (by decide) (by simp [fieldIsVal, isStruct, isInterface, Val.kind, vOfInterf, Val.interf, valueOf, indirect, isFieldZero, optValBeq, valBeq, Val.typeOf, zeroOfType, fInt]) (by decide)
  · exact c6_zero_field_handling.2.2.1 (Val.int 3) (by decide) (by decide)
  · have h := c6_zero_field_handling.2.2.2.1 [] [] fInt .int (.int 0) []
      (by decide) (by simp [fieldIsVal, isStruct, isInterface, Val.kind, vOfInterf, Val.interf, valueOf, indirect, isFieldZero, optValBeq, valBeq, Val.typeOf, zeroOfType, fInt]) (by decide)
    simpa [fInt] using h
  · exact c6_zero_field_handling.2.2.2.2 [] [] ⟨"I", "", false, ",omitempty"⟩ .int (.int 0) []
      (by decide) (by simp [fieldIsVal, isStruct, isInterface, Val.kind, vOfInterf, Val.interf, valueOf, indirect, isFieldZero, optValBeq, valBeq, Val.typeOf, zeroOfType, fInt]) (by decide)

/-! ## Claim C5: Map splices anonymous embedded records -/

/-- An exported string field `Name` with no tag. -/
def fName : FieldInfo := ⟨"Name", "", false, ""⟩

/-- An exported int field `Year` with no tag. -/
def fYear : FieldInfo := ⟨"Year", "", false, ""⟩

/-- `type SubInfo struct { Name string; Year int }`. -/
def tySub : Ty := .strct "SubInfo" [(fName, .str), (fYear, .int)]

/-- `SubInfo{Name: "n", Year: 2020}`. -/
def subVal : Val := .strct "SubInfo" [(fName, .str, .str "n"), (fYear, .int, .int 2020)]

/-- The anonymous (embedded) `SubInfo` field: its name is the type name. -/
def fSubAnon : FieldInfo := ⟨"SubInfo", "", true, ""⟩

/-- A named `Sub SubInfo` field. -/
def fSubNamed : FieldInfo := ⟨"Sub", "", false, ""⟩

/-- An exported string field `Own` with no tag. -/
def fOwn : FieldInfo := ⟨"Own", "", false, ""⟩

/-- A record embedding `SubInfo` anonymously, plus its own field. -/
def parentAnon : Val := .strct "Parent" [(fSubAnon, tySub, subVal), (fOwn, .str, .str "o")]

/-- A record holding `SubInfo` under the named field `Sub`. -/
def parentNamed : Val := .strct "Parent2" [(fSubNamed, tySub, subVal), (fOwn, .str, .str "o")]

/-- C5: in `doMap`, a traversed nested record field that is anonymous has
its produced keys spliced directly into the parent's mapping, while a named
one is nested under its own key; concretely, mapping a record embedding
`SubInfo{Name, Year}` yields top-level `"Name"`/`"Year"` keys and no
`"SubInfo"` key, whereas the named variant nests them under `"Sub"`. -/
theorem c5_map_flattening :
    (∀ (ntl : List Ty) (m : List (String × MapVal)) (f : FieldInfo) (t : Ty)
        (fv : Val) (rest : List (FieldInfo × Ty × Val)),
      (newTag f.Tag).isOmitField = false →
      isStruct fv = true →
      isNoTraverseType ntl fv = false →
      (newTag f.Tag).isNoTraverse = false →
      fieldIsVal ntl f fv = true →
      f.Anonymous = true →
      mapLoop ntl m ((f, t, fv) :: rest)
        = mapLoop ntl (spliceAll m (doMap ntl fv)) rest)
    ∧ (∀ (ntl : List Ty) (m : List (String × MapVal)) (f : FieldInfo) (t : Ty)
        (fv : Val) (rest : List (FieldInfo × Ty × Val)),
      (newTag f.Tag).isOmitField = false →
      isStruct fv = true →
      isNoTraverseType ntl fv = false →
      (newTag f.Tag).isNoTraverse = false →
      fieldIsVal ntl f fv = true →
      f.Anonymous = false →
      mapLoop ntl m ((f, t, fv) :: rest)
        = mapLoop ntl (mapInsert m
            (if !isStringEmpty (newTag f.Tag).Name then (newTag f.Tag).Name else f.Name)
            (.obj (doMap ntl fv))) rest)
    ∧ Map [] (some parentAnon)
        = .ok [("Name", .raw (.str "n")), ("Year", .raw (.int 2020)),
               ("Own", .raw (.str "o"))]
    ∧ Map [] (some parentNamed)
        = .ok [("Sub", .obj [("Name", .raw (.str "n")), ("Year", .raw (.int 2020))]),
               ("Own", .raw (.str "o"))]
    ∧ mapLookup [("Name", .raw (.str "n")), ("Year", .raw (.int 2020)),
        ("Own", .raw (.str "o"))] "SubInfo" = none
    ∧ mapLookup [("Name", .raw (.str "n")), ("Year", .raw (.int 2020)),
        ("Own", .raw (.str "o"))] "Name" = some (.raw (.str "n")) := by
  refine ⟨?_, ?_, ?_, ?_, by simp [mapLookup], by simp [mapLookup]⟩
  · intro ntl m f t fv rest h1 h2 h3 h4 h5 h6
    simp [mapLoop, h1, h2, h3, h4, h5, h6]
  · intro ntl m f t fv rest h1 h2 h3 h4 h5 h6
    simp [mapLoop, h1, h2, h3, h4, h5, h6]
  · simp [Map, structValue, valueOf, indirect, isStruct, isInterface, vOfInterf,
      Val.interf, Val.kind, doMap, mapLoop, mapVal, mapInsert, spliceAll, mapLookup,
      parentAnon, subVal, tySub, fName, fYear, fSubAnon, fOwn, modelFieldVals,
      filterExported, newTag, goSplit, goJoin, splitChar, joinChar,
      ModelTag.isOmitField, OmitField, ModelTag.isOmitEmpty, ModelTag.isExists,
      OmitEmpty, strContains, subList, isFieldZero, optValBeq, valBeq, Val.typeOf,
      zeroOfType, isNoTraverseType, ModelTag.isNoTraverse, NoTraverse, IsZero,
      isZeroFields, fieldIsVal, isStringEmpty, zeroOf, isPtr, Ty.kind, containsTy]
  · simp [Map, structValue, valueOf, indirect, isStruct, isInterface, vOfInterf,
      Val.interf, Val.kind, doMap, mapLoop, mapVal, mapInsert, spliceAll, mapLookup,
      parentNamed, subVal, tySub, fName, fYear, fSubNamed, fOwn, modelFieldVals,
      filterExported, newTag, goSplit, goJoin, splitChar, joinChar,
      ModelTag.isOmitField, OmitField, ModelTag.isOmitEmpty, ModelTag.isExists,
      OmitEmpty, strContains, subList, isFieldZero, optValBeq, valBeq, Val.typeOf,
      zeroOfType, isNoTraverseType, ModelTag.isNoTraverse, NoTraverse, IsZero,
      isZeroFields, fieldIsVal, isStringEmpty, zeroOf, isPtr, Ty.kind, containsTy]

/-- Witness for C5: the splice and nest steps at the concrete `SubInfo`
field of the fixtures. -/
theorem c5_map_flattening_witness :
    mapLoop [] [] [(fSubAnon, tySub, subVal)]
      = mapLoop [] (spliceAll [] (doMap [] subVal)) []
    ∧ mapLoop [] [] [(fSubNamed, tySub, subVal)]
      = mapLoop [] (mapInsert []
          (if !isStringEmpty (newTag fSubNamed.Tag).Name then (newTag fSubNamed.Tag).Name
           else fSubNamed.Name)
          (.obj (doMap [] subVal))) [] := by
  constructor
  · exact c5_map_flattening.1 [] [] fSubAnon tySub subVal []
      (by decide) (by decide) (by decide) (by decide)
      (by simp [fieldIsVal, isStruct, isInterface, Val.kind, vOfInterf, Val.interf,
        valueOf, indirect, isFieldZero, optValBeq, valBeq, Val.typeOf, zeroOfType,
        subVal, fName, fYear, fSubAnon, isNoTraverseType, containsTy, newTag, goSplit,
        goJoin, splitChar, joinChar, ModelTag.isNoTraverse, ModelTag.isExists,
        strContains, subList, NoTraverse, IsZero, isZeroFields, structValue,
        modelFieldVals, filterExported, ModelTag.isOmitField, OmitField]) (by decide)
  · exact c5_map_flattening.2.1 [] [] fSubNamed tySub subVal []
      (by decide) (by decide) (by decide) (by decide)
      (by simp [fieldIsVal, isStruct, isInterface, Val.kind, vOfInterf, Val.interf,
        valueOf, indirect, isFieldZero, optValBeq, valBeq, Val.typeOf, zeroOfType,
        subVal, fName, fYear, fSubNamed, isNoTraverseType, containsTy, newTag, goSplit,
        goJoin, splitChar, joinChar, ModelTag.isNoTraverse, ModelTag.isExists,
        strContains, subList, NoTraverse, IsZero, isZeroFields, structValue,
        modelFieldVals, filterExported, ModelTag.isOmitField, OmitField]) (by decide)

/-! ## Claim C2: field-level copy errors are non-fatal -/

/-- A conversion function that always fails (for exercising the
conversion-failure path). -/
def convFail : Converter := fun _ => Except.error "boom"

/-- A registry holding one failing int-to-string conversion. -/
def cmIntStrFail : ConvMap := [(Ty.int, Ty.str, convFail)]

/-- A destination struct whose field `I` is a string. -/
def dstStrI : Val := .strct "D" [(fInt, .str, .str "old")]

/-- C2: during a copy, a per-field validation error - destination field
missing, kind mismatch, or type mismatch - is appended to the error
collection while the destination is left as it was and the loop continues
with the remaining fields; `valiadateCopyField` produces exactly those
errors and produces none when the destination field is interface-typed;
and, in the conversion-enabled engine, a failing conversion function
likewise only appends its error and continues, leaving the destination
field unmodified. -/
theorem c2_field_errors_nonfatal :
    (∀ (ntl : List Ty) (dv : Val) (f : FieldInfo) (t : Ty) (sfv : Val)
        (rest : List (FieldInfo × Ty × Val)) (err : CopyErr),
      (newTag f.Tag).isOmitField = false →
      fieldIsVal ntl f sfv = true →
      valiadateCopyField f sfv (fieldByName dv f.Name) = some err →
      copyLoop ntl dv ((f, t, sfv) :: rest)
        = ((copyLoop ntl dv rest).1, err :: (copyLoop ntl dv rest).2))
    ∧ (∀ (f : FieldInfo) (sfv : Val),
        valiadateCopyField f sfv .invalid = some (.fieldNotExistsInDst f.Name))
    ∧ (∀ (f : FieldInfo) (sfv dfv : Val),
        isValid dfv = true → sfv.kind ≠ dfv.kind → isInterface dfv = false →
        valiadateCopyField f sfv dfv = some (.kindMismatch f.Name sfv.kind dfv.kind))
    ∧ (∀ (f : FieldInfo) (sfv dfv : Val),
        isValid dfv = true → sfv.kind = dfv.kind →
        tyBeq (deepTypeOf sfv) (deepTypeOf dfv) = false → isInterface dfv = false →
        valiadateCopyField f sfv dfv
          = some (.typeMismatch f.Name (deepTypeOf sfv) (deepTypeOf dfv)))
    ∧ (∀ (f : FieldInfo) (sfv dfv : Val), isInterface dfv = true →
        valiadateCopyField f sfv dfv = none)
    ∧ (∀ (ntl : List Ty) (cm : ConvMap) (dv : Val) (f : FieldInfo) (t : Ty) (sfv : Val)
        (rest : List (FieldInfo × Ty × Val)) (conv : Converter) (msg : String),
      (newTag f.Tag).isOmitField = false →
      fieldIsVal ntl f sfv = true →
      validateCopyField cm f sfv (fieldByName dv f.Name) = none →
      canSet dv f.Name = true →
      lookupConversion cm sfv.typeOf (fieldByName dv f.Name).typeOf = some conv →
      conv sfv = .error msg →
      copyLoopConv ntl cm dv ((f, t, sfv) :: rest)
        = ((copyLoopConv ntl cm dv rest).1,
           CopyErr.convFailed f.Name msg :: (copyLoopConv ntl cm dv rest).2)) := by
  refine ⟨?_, ?_, ?_, ?_, ?_, ?_⟩
  · intro ntl dv f t sfv rest err h1 h2 h3
    simp [copyLoop, h1, h2, h3]
  · intro f sfv
    simp [valiadateCopyField, isValid, Val.kind]
  · intro f sfv dfv h1 h2 h3
    simp [valiadateCopyField, h1, h2, h3]
  · intro f sfv dfv h1 h2 h3 h4
    simp [valiadateCopyField, h1, h2, h3, h4]
  · intro f sfv dfv h
    cases dfv <;> simp_all [valiadateCopyField, isInterface, isValid, Val.kind]
  · intro ntl cm dv f t sfv rest conv msg h1 h2 h3 h4 h5 h6
    simp [copyLoopConv, h1, h2, h3, h4, h5, h6]

/-- Witness for C2: a string source field against an int destination field
(kind mismatch), a pointer type mismatch, an interface destination, and a
failing registered conversion - each at a concrete copy step. -/
theorem c2_field_errors_nonfatal_witness :
    copyLoop [] valTwo [(fStr, .str, Val.int 9)]
      = ((copyLoop [] valTwo []).1,
         CopyErr.kindMismatch "S" .int .str :: (copyLoop [] valTwo []).2)
    ∧ valiadateCopyField fInt (.str "x") .invalid
        = some (.fieldNotExistsInDst "I")
    ∧ valiadateCopyField fInt (.ptrV .int (.int 1)) (.ptrV .str (.str ""))
        = some (.typeMismatch "I" (.ptr .int) (.ptr .str))
    ∧ valiadateCopyField fInt (.str "x") (.ifaceV (.int 1)) = none
    ∧ copyLoopConv [] cmIntStrFail dstStrI [(fInt, .int, Val.int 7)]
      = ((copyLoopConv [] cmIntStrFail dstStrI []).1,
         CopyErr.convFailed "I" "boom" :: (copyLoopConv [] cmIntStrFail dstStrI []).2) := by
  refine ⟨?_, ?_, ?_, ?_, ?_⟩
  · refine c2_field_errors_nonfatal.1 [] valTwo fStr .str (Val.int 9) []
      (CopyErr.kindMismatch "S" .int .str) (by decide) ?_ ?_
    · simp [fieldIsVal, isStruct, isInterface, Val.kind, vOfInterf, Val.interf,
        valueOf, indirect, isFieldZero, optValBeq, valBeq, Val.typeOf, zeroOfType, fStr]
    · simp [valiadateCopyField, isValid, Val.kind, isInterface, fieldByName, findField,
        valTwo, fInt, fStr, deepTypeOf, tyBeq, Val.typeOf, isFieldZero, optValBeq, valBeq,
        zeroOfType]
  · exact c2_field_errors_nonfatal.2.1 fInt (.str "x")
  · refine c2_field_errors_nonfatal.2.2.2.1 fInt (.ptrV .int (.int 1)) (.ptrV .str (.str ""))
      (by decide) (by decide) ?_ (by decide)
    simp [deepTypeOf, isInterface, Val.kind, isFieldZero, optValBeq, valBeq, Val.typeOf,
      zeroOfType, vOfInterf, Val.interf, valueOf, tyBeq]
  · exact c2_field_errors_nonfatal.2.2.2.2.1 fInt (.str "x") (.ifaceV (.int 1)) (by decide)
  · refine c2_field_errors_nonfatal.2.2.2.2.2 [] cmIntStrFail dstStrI fInt .int (Val.int 7) []
      convFail "boom" (by decide) ?_ ?_ (by decide) ?_ rfl
    · simp [fieldIsVal, isStruct, isInterface, Val.kind, vOfInterf, Val.interf,
        valueOf, indirect, isFieldZero, optValBeq, valBeq, Val.typeOf, zeroOfType, fInt]
    · simp [validateCopyField, isValid, Val.kind, isInterface, fieldByName, findField,
        dstStrI, fInt, conversionExists, cmIntStrFail, tyBeq, Val.typeOf]
    · simp [lookupConversion, cmIntStrFail, tyBeq, Val.typeOf, fieldByName, findField,
        dstStrI, fInt, List.find?]

/-! ## Claim C4: conversion precedence over kind/type validation -/

/-- A conversion function from int values to a string value. -/
def convIntToStr : Converter := fun v =>
  match v with
  | .int _ => Except.ok (Val.str "converted")
  | _ => Except.error "not an int"

/-- A registry holding one succeeding int-to-string conversion. -/
def cmIntStr : ConvMap := [(Ty.int, Ty.str, convIntToStr)]

/-- No type of the modelled universe has slice or map kind. -/
theorem ty_kind_not_container (t : Ty) :
    (t.kind == Kind.slice) = false ∧ (t.kind == Kind.map) = false := by
  cases t <;> simp [Ty.kind]

/-- C4: a conversion registered for a (source type, destination type) pair
makes `validateCopyField` accept the pair without any kind- or
type-mismatch error, and the conversion-enabled engine then writes the
conversion function's output into the destination field; with the
conversion absent from the registry, the same field validation reproduces
the kind-mismatch (or type-mismatch) error. -/
theorem c4_conversion_precedence :
    (∀ (cm : ConvMap) (f : FieldInfo) (sfv dfv : Val),
      isValid dfv = true →
      conversionExists cm sfv.typeOf dfv.typeOf = true →
      validateCopyField cm f sfv dfv = none)
    ∧ (∀ (ntl : List Ty) (cm : ConvMap) (dv : Val) (f : FieldInfo) (t : Ty) (sfv : Val)
        (rest : List (FieldInfo × Ty × Val)) (conv : Converter) (out : Val),
      (newTag f.Tag).isOmitField = false →
      fieldIsVal ntl f sfv = true →
      validateCopyField cm f sfv (fieldByName dv f.Name) = none →
      canSet dv f.Name = true →
      lookupConversion cm sfv.typeOf (fieldByName dv f.Name).typeOf = some conv →
      conv sfv = .ok out →
      copyLoopConv ntl cm dv ((f, t, sfv) :: rest)
        = copyLoopConv ntl cm (setFieldByName dv f.Name out) rest)
    ∧ (∀ (cm : ConvMap) (f : FieldInfo) (sfv dfv : Val),
      conversionExists cm sfv.typeOf dfv.typeOf = false →
      isValid dfv = true → sfv.kind ≠ dfv.kind → isInterface dfv = false →
      validateCopyField cm f sfv dfv = some (.kindMismatch f.Name sfv.kind dfv.kind))
    ∧ (∀ (cm : ConvMap) (f : FieldInfo) (sfv dfv : Val),
      conversionExists cm sfv.typeOf dfv.typeOf = false →
      isValid dfv = true → sfv.kind = dfv.kind →
      tyBeq (deepTypeOf sfv) (deepTypeOf dfv) = false → isInterface dfv = false →
      validateCopyField cm f sfv dfv
        = some (.typeMismatch f.Name (deepTypeOf sfv) (deepTypeOf dfv))) := by
  refine ⟨?_, ?_, ?_, ?_⟩
  · intro cm f sfv dfv h1 h2
    simp [validateCopyField, h1, h2]
  · intro ntl cm dv f t sfv rest conv out h1 h2 h3 h4 h5 h6
    simp [copyLoopConv, h1, h2, h3, h4, h5, h6]
  · intro cm f sfv dfv h1 h2 h3 h4
    simp [validateCopyField, h1, h2, h3, h4]
  · intro cm f sfv dfv h1 h2 h3 h4 h5
    have hk := ty_kind_not_container (deepTypeOf sfv)
    simp [validateCopyField, h1, h2, h3, h4, h5, hk.1, hk.2]

/-- Witness for C4: with the int-to-string conversion registered the int
source field passes validation and its converted output is written; with
the empty registry the identical field reports the kind mismatch. -/
theorem c4_conversion_precedence_witness :
    validateCopyField cmIntStr fInt (.int 7) (.str "old") = none
    ∧ copyLoopConv [] cmIntStr dstStrI [(fInt, .int, Val.int 7)]
        = copyLoopConv [] cmIntStr (setFieldByName dstStrI "I" (.str "converted")) []
    ∧ validateCopyField [] fInt (.int 7) (.str "old")
        = some (.kindMismatch "I" .int .str)
    ∧ validateCopyField [] fInt (.ptrV .int (.int 1)) (.ptrV .str (.str ""))
        = some (.typeMismatch "I" (.ptr .int) (.ptr .str)) := by
  refine ⟨?_, ?_, ?_, ?_⟩
  · exact c4_conversion_precedence.1 cmIntStr fInt (.int 7) (.str "old") (by decide)
      (by simp [conversionExists, cmIntStr, tyBeq, Val.typeOf])
  · refine c4_conversion_precedence.2.1 [] cmIntStr dstStrI fInt .int (Val.int 7) []
      convIntToStr (.str "converted") (by decide) ?_ ?_ (by decide) ?_ rfl
    · simp [fieldIsVal, isStruct, isInterface, Val.kind, vOfInterf, Val.interf,
        valueOf, indirect, isFieldZero, optValBeq, valBeq, Val.typeOf, zeroOfType, fInt]
    · simp [validateCopyField, isValid, Val.kind, isInterface, fieldByName, findField,
        dstStrI, fInt, conversionExists, cmIntStr, tyBeq, Val.typeOf]
    · simp [lookupConversion, cmIntStr, tyBeq, Val.typeOf, fieldByName, findField,
        dstStrI, fInt, List.find?]
  · exact c4_conversion_precedence.2.2.1 [] fInt (.int 7) (.str "old")
      (by simp [conversionExists]) (by decide) (by decide) (by decide)
  · refine c4_conversion_precedence.2.2.2 [] fInt (.ptrV .int (.int 1)) (.ptrV .str (.str ""))
      (by simp [conversionExists]) (by decide) (by decide) ?_ (by decide)
    simp [deepTypeOf, isInterface, Val.kind, isFieldZero, optValBeq, valBeq, Val.typeOf,
      zeroOfType, vOfInterf, Val.interf, valueOf, tyBeq]

end GoModel
